import Mathlib

/-
Verification development for the js_typify_gostruct repository.

The repository contains two generations of the translation pipeline:
 * an older tree-walking pipeline under `src/treewalk` (`parser.rs`,
   `interpreter.rs`), embedded below in namespace `Treewalk`;
 * a newer pipeline under `typify_gostruct/src` (`scanner.rs`,
   `interpreters/typescript.rs`), embedded below in namespace `Gostruct`.

Strings are modelled as Lean `String` / `List Char`; machine integers in the
sources are only positions and lengths, modelled as `Nat`.
-/

namespace Gostruct

/-- Data types recognized by the new pipeline (`crate::ast::DataType`; the file
`ast.rs` is not under src/, the variants are the ones used by `scanner.rs` and
`interpreters/typescript.rs`: Number, String, Boolean, Custom, Embedded). -/
inductive DataType where
  | number
  | string
  | boolean
  | custom (s : String)
  | embedded
  deriving DecidableEq, Repr

/-- Token kinds of the new scanner (`scanner.rs`, `enum Token`). -/
inductive Token where
  | leftBrace
  | rightBrace
  | colon
  | identifier (s : String)
  | stringLiteral (s : String)
  | whitespace
  | graveaccent
  | nextLine
  | leftBracket
  | rightBracket
  | pointer
  | typeKw
  | structKw
  | dataType (d : DataType)
  deriving DecidableEq, Repr

/-- Source position (`scanner.rs`, `struct Position`), 1-based counters. -/
structure Position where
  line : Nat
  column : Nat
  deriving DecidableEq, Repr

/-- `Position::initial` -/
def Position.initial : Position := ⟨1, 1⟩

/-- `Position::increment_column` -/
def Position.incrementColumn (p : Position) : Position := ⟨p.line, p.column + 1⟩

/-- `Position::increment_line` -/
def Position.incrementLine (p : Position) : Position := ⟨p.line + 1, 1⟩

/-- The position update performed by `Scanner::advance` for one consumed
character: a newline increments the line and resets the column, every other
character increments the column. -/
def stepPos (p : Position) (c : Char) : Position :=
  if c = '\n' then p.incrementLine else p.incrementColumn

/-- `scanner.rs`, `struct TokenWithContext`. -/
structure TokenWithContext where
  token : Token
  lexeme : String
  position : Position
  deriving DecidableEq, Repr

/-- `scanner.rs`, `enum ScannerError`. -/
inductive ScannerError where
  | missingStringTerminator (p : Position)
  deriving DecidableEq, Repr

/-- The scanner state (`struct Scanner`): current position, the lexeme
accumulated for the token being scanned, and the unconsumed source. -/
structure ScanState where
  pos : Position
  lexeme : List Char
  source : List Char
  deriving DecidableEq, Repr

/-- `scanner.rs`, `is_digit`. -/
def isDigit (c : Char) : Bool := ('0' ≤ c) && (c ≤ '9')

/-- `scanner.rs`, `is_alpha`: letters plus `.` and `-`. -/
def isAlpha (c : Char) : Bool :=
  (('a' ≤ c) && (c ≤ 'z')) || (('A' ≤ c) && (c ≤ 'Z')) || (c = '.') || (c = '-')

/-- `scanner.rs`, `is_alphanumeric`. -/
def isAlphanumeric (c : Char) : Bool := isDigit c || isAlpha c

/-- `scanner.rs`, `is_nextline`. -/
def isNextline (c : Char) : Bool := c = '\n'

/-- `scanner.rs`, `is_whitespace`: space, carriage return, tab. -/
def isWhitespace (c : Char) : Bool := (c = ' ') || (c = '\r') || (c = '\t')

/-- `Scanner::advance_while`, unfolded over the source character list: consume
characters satisfying `p`, pushing them onto the lexeme and updating the
position, and stop at the first character that fails `p` (or at end of input).
Returns the new position, lexeme, and remaining source. -/
def advanceWhileAux (p : Char → Bool) (pos : Position) (lex : List Char) :
    List Char → Position × List Char × List Char
  | [] => (pos, lex, [])
  | c :: rest =>
    if p c then advanceWhileAux p (stepPos pos c) (lex ++ [c]) rest
    else (pos, lex, c :: rest)

/-- `Scanner::advance_while` acting on a scanner state. -/
def advanceWhile (p : Char → Bool) (st : ScanState) : ScanState :=
  let r := advanceWhileAux p st.pos st.lexeme st.source
  ⟨r.1, r.2.1, r.2.2⟩

/-- The condition of the `advance_while` call in `Scanner::string`:
not a double quote and not a newline. -/
def notQuoteNewline (c : Char) : Bool := (c != '"') && (c != '\n')

/-- `Scanner::string`: called after the opening quote has been consumed (it is
the last character of `st.lexeme`).  Consumes characters until a quote,
newline, or end of input; if the next character is a quote it is consumed and
a string literal token is produced from the lexeme stripped of its delimiters,
otherwise the scan fails with `MissingStringTerminator` at the current
position. -/
def stringFn (st : ScanState) : Except ScannerError Token × ScanState :=
  let st1 := advanceWhile notQuoteNewline st
  match st1.source with
  | '"' :: rest =>
    let st2 : ScanState := ⟨stepPos st1.pos '"', st1.lexeme ++ ['"'], rest⟩
    let literal := (st2.lexeme.drop 1).take (st2.lexeme.length - 2)
    (Except.ok (Token.stringLiteral (String.mk literal)), st2)
  | _ => (Except.error (ScannerError.missingStringTerminator st1.pos), st1)

/-- The keyword table of `Scanner::identifier`: classify a complete lexeme. -/
def keywordOf (s : String) : Token :=
  if s = "type" then Token.typeKw
  else if s = "struct" then Token.structKw
  else if s = "int64" then Token.dataType DataType.number
  else if s = "float64" then Token.dataType DataType.number
  else if s = "string" then Token.dataType DataType.string
  else if s = "int" then Token.dataType DataType.number
  else if s = "time.Time" then Token.dataType DataType.string
  else if s = "bool" then Token.dataType DataType.boolean
  else Token.identifier s

/-- `Scanner::identifier`: consume the maximal run of identifier characters
and classify the accumulated lexeme through the keyword table. -/
def identifierFn (st : ScanState) : Token × ScanState :=
  let st1 := advanceWhile isAlphanumeric st
  (keywordOf (String.mk st1.lexeme), st1)

/-- The character dispatch of `Scanner::scan_next`, after the first character
`c` of the token has been consumed (state `st1`). -/
def scanRaw (c : Char) (st1 : ScanState) : Except ScannerError Token × ScanState :=
  if c = ':' then (Except.ok Token.colon, st1)
  else if c = '{' then (Except.ok Token.leftBrace, st1)
  else if c = '}' then (Except.ok Token.rightBrace, st1)
  else if c = Char.ofNat 96 then (Except.ok Token.graveaccent, st1)
  else if c = '[' then (Except.ok Token.leftBracket, st1)
  else if c = ']' then (Except.ok Token.rightBracket, st1)
  else if c = '*' then (Except.ok Token.pointer, st1)
  else if isNextline c then (Except.ok Token.nextLine, st1)
  else if isWhitespace c then (Except.ok Token.whitespace, st1)
  else if c = '"' then stringFn st1
  else
    let r := identifierFn st1
    (Except.ok r.1, r.2)

/-- `Scanner::scan_next`: remember the current position, clear the lexeme,
consume one character and dispatch on it; the produced token carries the
remembered initial position and the accumulated lexeme.  Returns `none` at end
of input. -/
def scanNext (st : ScanState) : Option ((Except ScannerError TokenWithContext) × ScanState) :=
  match st.source with
  | [] => none
  | c :: rest =>
    let initialPos := st.pos
    let st1 : ScanState := ⟨stepPos st.pos c, [c], rest⟩
    let r := scanRaw c st1
    some (r.1.map (fun t => ⟨t, String.mk r.2.lexeme, initialPos⟩), r.2)

/-- Debug formatting of a scanner error, as produced by `format!("{:?}", e)`
in `scan`. -/
def formatScannerError : ScannerError → String
  | ScannerError.missingStringTerminator p =>
    "MissingStringTerminator(Position \x7b line: " ++ toString p.line ++
      ", column: " ++ toString p.column ++ " \x7d)"

/-- The collection loop of `scan`: run `scan_next` to exhaustion, keeping the
tokens (with whitespace and pointer tokens filtered out) and the formatted
errors, in order.  `fuel` bounds the number of iterations; every iteration
consumes at least one source character, so `source.length + 1` always
suffices. -/
def scanAux : Nat → ScanState → List TokenWithContext × List String
  | 0, _ => ([], [])
  | fuel + 1, st =>
    match scanNext st with
    | none => ([], [])
    | some (Except.ok twc, st') =>
      let r := scanAux fuel st'
      match twc.token with
      | Token.whitespace => r
      | Token.pointer => r
      | _ => (twc :: r.1, r.2)
    | some (Except.error e, st') =>
      let r := scanAux fuel st'
      (r.1, formatScannerError e :: r.2)

/-- `scan`: scan the whole input; succeed with the token sequence when no
lexical error occurred and fail with the full error list otherwise. -/
def scan (input : String) : Except (List String) (List TokenWithContext) :=
  let r := scanAux (input.length + 1) ⟨Position.initial, [], input.data⟩
  if r.2.isEmpty then Except.ok r.1 else Except.error r.2

/-- `crate::ast::FieldName` (tuple struct over `String`; `ast.rs` is not under
src/, shape taken from its uses `field_name.0` in `typescript.rs`). -/
structure FieldName where
  val : String
  deriving DecidableEq, Repr

/-- `crate::ast::FieldType`: scalar or list of a data type (`ast.rs` is not
under src/; shape taken from `typescript.rs` and the spec data model). -/
inductive FieldType where
  | one (d : DataType)
  | list (d : DataType)
  deriving DecidableEq, Repr

/-- `crate::ast::TagKey` (tuple struct over `String`). -/
structure TagKey where
  key : String
  deriving DecidableEq, Repr

/-- `crate::ast::TagValue` (tuple struct over `String`). -/
structure TagValue where
  val : String
  deriving DecidableEq, Repr

/-- `crate::ast::Field` (`ast.rs` is not under src/; the variants are the ones
matched by `typescript.rs`: Blank, Plain, WithTags).  The tag map is a
`HashMap<TagKey, TagValue>` in the source; it is modelled as an association
list, over which the interpreter folds exactly as the source's `for` loop
does (the spec states insertion order is irrelevant and keys are unique). -/
inductive Field where
  | blank
  | plain (name : FieldName) (type' : FieldType)
  | withTags (name : FieldName) (type' : FieldType) (tags : List (TagKey × TagValue))
  deriving DecidableEq, Repr

/-- `crate::ast::StructDeclaration`. -/
structure StructDeclaration where
  name : String
  body : List Field
  deriving DecidableEq, Repr

/-- `crate::ast::AST` (`ast.rs` is not under src/; `typescript.rs` matches on
`AST::Declaration` and treats every other variant as a field, per the spec's
data model the only other variant is a field). -/
inductive AST where
  | declaration (d : StructDeclaration)
  | field (f : Field)
  deriving DecidableEq, Repr

/-- Modelled from the spec: `interpreters/mod.rs` is not under src/; the spec
states interpretation has exactly one failure mode, and
`ExpectedStructFoundField` is the only constructor `typescript.rs` uses. -/
inductive InterpreterError where
  | expectedStructFoundField
  deriving DecidableEq, Repr

/-- `super::FieldType` of the interpreters module (`interpreters/mod.rs` is
not under src/; the constructors `Normal` and `Embedded` are the ones used by
`typescript.rs`). -/
inductive RenderFieldType where
  | normal (s : String)
  | embedded
  deriving DecidableEq, Repr

/-- `TypeScriptInterpreter::get_field_type`. -/
def getFieldTypeTS : DataType → RenderFieldType
  | DataType.number => RenderFieldType.normal ("number")
  | DataType.string => RenderFieldType.normal ("string")
  | DataType.boolean => RenderFieldType.normal ("boolean")
  | DataType.custom c => RenderFieldType.normal c
  | DataType.embedded => RenderFieldType.embedded

/-- `TypeScriptInterpreter::convert_field_type`: append the list notation to
normal types; embedded types pass through. -/
def convertFieldType (ft : FieldType) : RenderFieldType :=
  let nota := match ft with
    | FieldType.list _ => "[]"
    | FieldType.one _ => ""
  let base := match ft with
    | FieldType.one d => getFieldTypeTS d
    | FieldType.list d => getFieldTypeTS d
  match base with
  | RenderFieldType.normal s => RenderFieldType.normal (s ++ nota)
  | RenderFieldType.embedded => RenderFieldType.embedded

/-- The tag loop of `TypeScriptInterpreter::interpret_field_with_tags`: a
`json` tag entry replaces the rendered field name. -/
def resolveTagName (name : String) (tags : List (TagKey × TagValue)) : String :=
  tags.foldl (fun acc kv => if kv.1 = TagKey.mk "json" then kv.2.val else acc) name

/-- `TypeScriptInterpreter::interpret_field` (with
`interpret_field_with_tags` inlined for the tagged case). -/
def tsField : Field → String
  | Field.blank => ""
  | Field.plain fn ft =>
    match convertFieldType ft with
    | RenderFieldType.normal s => fn.val ++ " : " ++ s ++ ","
    | RenderFieldType.embedded => "..." ++ fn.val ++ ", "
  | Field.withTags fn ft tags =>
    let n := resolveTagName fn.val tags
    match convertFieldType ft with
    | RenderFieldType.normal s => n ++ " : " ++ s ++ ", "
    | RenderFieldType.embedded => "..." ++ n ++ ", "

/-- `TypeScriptInterpreter::interpret_struct`. -/
def tsStruct (d : StructDeclaration) : String :=
  "\n export interface " ++ d.name ++ " = " ++ "\x7b" ++
    String.join (d.body.map tsField) ++ "\x7d"

/-- `TypeScriptInterpreter::interpret` (trait method): render each top-level
declaration in order; the first non-declaration item aborts with the
interpreter error. -/
def interpretTS : List AST → Except InterpreterError String
  | [] => Except.ok ""
  | AST.declaration d :: rest => (interpretTS rest).map (fun s => tsStruct d ++ s)
  | AST.field _ :: _ => Except.error InterpreterError.expectedStructFoundField

/-- Whether a top-level AST item is a struct declaration. -/
def AST.isDeclaration : AST → Bool
  | AST.declaration _ => true
  | AST.field _ => false

end Gostruct

namespace Treewalk

/-- `crate::data_types::Type` of the old pipeline.  Modelled from the spec:
`data_types.rs` is not under src/; the spec's DataType is Number, String,
Boolean and Unspecified (`Type::Any` in `parser.rs`), displayed in the target
dialect as `number`, `string`, `boolean`; the unspecified type displays as the
target's unknown type `any`. -/
inductive Ty where
  | number
  | string
  | boolean
  | any
  deriving DecidableEq, Repr

/-- The target-dialect display of a `Type` (its `Display` impl, modelled from
the spec as `data_types.rs` is not under src/). -/
def tyDisplay : Ty → String
  | Ty.number => "number"
  | Ty.string => "string"
  | Ty.boolean => "boolean"
  | Ty.any => "any"

/-- Position struct of the old pipeline's scanner (same shape as the new
one: 1-based line and column). -/
structure Position where
  line : Nat
  column : Nat
  deriving DecidableEq, Repr

/-- Tokens consumed by `treewalk/parser.rs`.  The old pipeline's scanner
module is not under src/; the variants are exactly the ones `parser.rs`
matches on (including the `Json` and `Binding` keyword tokens). -/
inductive Token where
  | leftBrace
  | rightBrace
  | colon
  | identifier (s : String)
  | stringLiteral (s : String)
  | graveaccent
  | nextLine
  | leftBracket
  | rightBracket
  | typeKw
  | structKw
  | json
  | binding
  | dataType (t : Ty)
  deriving DecidableEq, Repr

/-- `TokenWithContext` of the old pipeline: token, lexeme, position. -/
structure TokenWithContext where
  token : Token
  lexeme : String
  position : Position
  deriving DecidableEq, Repr

/-- `treewalk/ast.rs` is not under src/; the `GoStruct` variants are exactly
the ones constructed and matched by `parser.rs` and `interpreter.rs`. -/
inductive GoStruct where
  | structDefinition (name : String) (body : GoStruct)
  | block (statements : List GoStruct)
  | fieldNameWithTypeOnly (name : String) (type' : Ty)
  | fieldWithIdentifierTypeOnly (name literal : String)
  | fieldNameOnly (name : String)
  | fieldWithJSONTags (name : String) (type' : Ty) (tags : List GoStruct)
  | fieldWithList (name : String)
  | fieldWithListAndType (name : String) (type' : Ty)
  | fieldWithCustomListIdentifier (name custom : String)
  | fieldWithListTypeAndJSONTags (name : String) (type' : Ty) (tags : List GoStruct)
  | fieldWithIdentifierAndJSONTags (name literal : String) (tags : List GoStruct)
  | fieldWithCustomListIdentifierAndJSONTags (name custom : String) (tags : List GoStruct)
  | jsonName (s : String)
  | ignoreField
  | bindingTag
  | unknown
  deriving Repr

/-- `parser.rs`, `enum RequiredElements`. -/
inductive RequiredElements where
  | stringLit
  | structKw
  | leftBrace
  | identifier
  | colon
  deriving DecidableEq, Repr

/-- `parser.rs`, `enum ParseError`. -/
inductive ParseError where
  | unexpectedEndOfFile
  | unknownError
  | missing (e : RequiredElements) (lexeme : String) (pos : Position)
  deriving DecidableEq, Repr

/-- The `Display` impl of `RequiredElements`. -/
def formatRequiredElement : RequiredElements → String
  | RequiredElements.stringLit => "StringLiteral"
  | RequiredElements.structKw => "Struct"
  | RequiredElements.leftBrace => "LeftBrace"
  | RequiredElements.identifier => "Identifier"
  | RequiredElements.colon => "Colon"

/-- The `Display` impl of `ParseError`, used by `parse` to format
diagnostics. -/
def formatParseError : ParseError → String
  | ParseError.unexpectedEndOfFile => "Unexpected End Of file"
  | ParseError.unknownError =>
    "We have encountered an unknown error. This is likely a bug with the library."
  | ParseError.missing e lexeme pos =>
    "Expected " ++ formatRequiredElement e ++ " but found `" ++ lexeme ++
      "` at line " ++ toString pos.line ++ " column " ++ toString pos.column

/-- The `consume_expected_token!` macro instantiated at `Token::Struct`:
consume the next token if it is the `struct` keyword, report `Missing` (and
still consume it) otherwise, report `UnexpectedEndOfFile` at end of input. -/
def consumeStructKw : List TokenWithContext → Except ParseError Unit × List TokenWithContext
  | [] => (Except.error ParseError.unexpectedEndOfFile, [])
  | t :: rest =>
    match t.token with
    | Token.structKw => (Except.ok (), rest)
    | _ => (Except.error (ParseError.missing RequiredElements.structKw t.lexeme t.position), rest)

/-- `consume_expected_token!` at `Token::LeftBrace`. -/
def consumeLeftBrace : List TokenWithContext → Except ParseError Unit × List TokenWithContext
  | [] => (Except.error ParseError.unexpectedEndOfFile, [])
  | t :: rest =>
    match t.token with
    | Token.leftBrace => (Except.ok (), rest)
    | _ => (Except.error (ParseError.missing RequiredElements.leftBrace t.lexeme t.position), rest)

/-- `consume_expected_token!` at `Token::Colon`. -/
def consumeColon : List TokenWithContext → Except ParseError Unit × List TokenWithContext
  | [] => (Except.error ParseError.unexpectedEndOfFile, [])
  | t :: rest =>
    match t.token with
    | Token.colon => (Except.ok (), rest)
    | _ => (Except.error (ParseError.missing RequiredElements.colon t.lexeme t.position), rest)

/-- `consume_expected_identifier`. -/
def consumeIdentifier : List TokenWithContext → Except ParseError String × List TokenWithContext
  | [] => (Except.error ParseError.unexpectedEndOfFile, [])
  | t :: rest =>
    match t.token with
    | Token.identifier s => (Except.ok s, rest)
    | _ => (Except.error (ParseError.missing RequiredElements.identifier t.lexeme t.position), rest)

/-- `consume_expected_token_with_action!` at `Token::StringLiteral`. -/
def consumeStringLit : List TokenWithContext → Except ParseError String × List TokenWithContext
  | [] => (Except.error ParseError.unexpectedEndOfFile, [])
  | t :: rest =>
    match t.token with
    | Token.stringLiteral s => (Except.ok s, rest)
    | _ => (Except.error (ParseError.missing RequiredElements.stringLit t.lexeme t.position), rest)

/-- `parse_json`: require a colon and a string literal; the literal `-` parses
to the `IgnoreField` marker, anything else to `JSONName`. -/
def parseJson (toks : List TokenWithContext) :
    Except ParseError GoStruct × List TokenWithContext :=
  match consumeColon toks with
  | (Except.error e, rest) => (Except.error e, rest)
  | (Except.ok _, rest) =>
    match consumeStringLit rest with
    | (Except.error e, rest2) => (Except.error e, rest2)
    | (Except.ok lit, rest2) =>
      if lit = "-" then (Except.ok GoStruct.ignoreField, rest2)
      else (Except.ok (GoStruct.jsonName lit), rest2)

/-- `parse_binding`: require a colon and a string literal; the literal value
is discarded. -/
def parseBinding (toks : List TokenWithContext) :
    Except ParseError GoStruct × List TokenWithContext :=
  match consumeColon toks with
  | (Except.error e, rest) => (Except.error e, rest)
  | (Except.ok _, rest) =>
    match consumeStringLit rest with
    | (Except.error e, rest2) => (Except.error e, rest2)
    | (Except.ok _, rest2) => (Except.ok GoStruct.bindingTag, rest2)

mutual

/-- `parse_declaration`: dispatch on the leading token.  `fuel` bounds the
recursion depth (the Rust functions recurse on an iterator that every step
consumes from; with fuel exhausted the model returns the end-of-file error). -/
def parseDeclaration : Nat → List TokenWithContext →
    Except ParseError GoStruct × List TokenWithContext
  | 0, toks => (Except.error ParseError.unexpectedEndOfFile, toks)
  | _ + 1, [] => (Except.error ParseError.unexpectedEndOfFile, [])
  | fuel + 1, t :: rest =>
    match t.token with
    | Token.typeKw => parseStructDeclaration fuel rest
    | Token.identifier k => parseIdentifier fuel k rest
    | Token.leftBrace =>
      match parseBlockStmts fuel rest with
      | (Except.ok ss, r) => (Except.ok (GoStruct.block ss), r)
      | (Except.error e, r) => (Except.error e, r)
    | Token.json => parseJson rest
    | Token.binding => parseBinding rest
    | _ => (Except.ok GoStruct.unknown, rest)

/-- `parse_struct_declaration`: require identifier, `struct`, `{`, then parse
the body block. -/
def parseStructDeclaration : Nat → List TokenWithContext →
    Except ParseError GoStruct × List TokenWithContext
  | 0, toks => (Except.error ParseError.unexpectedEndOfFile, toks)
  | fuel + 1, toks =>
    match consumeIdentifier toks with
    | (Except.error e, r) => (Except.error e, r)
    | (Except.ok name, r) =>
      match consumeStructKw r with
      | (Except.error e, r2) => (Except.error e, r2)
      | (Except.ok _, r2) =>
        match consumeLeftBrace r2 with
        | (Except.error e, r3) => (Except.error e, r3)
        | (Except.ok _, r3) =>
          match parseBlockStmts fuel r3 with
          | (Except.ok ss, r4) =>
            (Except.ok (GoStruct.structDefinition name (GoStruct.block ss)), r4)
          | (Except.error e, r4) => (Except.error e, r4)

/-- The statement loop of `parse_block`: parse declarations until the closing
`}` (which is consumed); end of input before it is `UnexpectedEndOfFile`, and
any declaration error propagates. -/
def parseBlockStmts : Nat → List TokenWithContext →
    Except ParseError (List GoStruct) × List TokenWithContext
  | 0, toks => (Except.error ParseError.unexpectedEndOfFile, toks)
  | _ + 1, [] => (Except.error ParseError.unexpectedEndOfFile, [])
  | fuel + 1, t :: rest =>
    match t.token with
    | Token.rightBrace => (Except.ok [], rest)
    | _ =>
      match parseDeclaration fuel (t :: rest) with
      | (Except.ok s, r) =>
        match parseBlockStmts fuel r with
        | (Except.ok ss, r2) => (Except.ok (s :: ss), r2)
        | (Except.error e, r2) => (Except.error e, r2)
      | (Except.error e, r) => (Except.error e, r)

/-- The statement loop of `parse_backtick_block`: as `parse_block` but
terminated by the closing backtick. -/
def parseBacktickStmts : Nat → List TokenWithContext →
    Except ParseError (List GoStruct) × List TokenWithContext
  | 0, toks => (Except.error ParseError.unexpectedEndOfFile, toks)
  | _ + 1, [] => (Except.error ParseError.unexpectedEndOfFile, [])
  | fuel + 1, t :: rest =>
    match t.token with
    | Token.graveaccent => (Except.ok [], rest)
    | _ =>
      match parseDeclaration fuel (t :: rest) with
      | (Except.ok s, r) =>
        match parseBacktickStmts fuel r with
        | (Except.ok ss, r2) => (Except.ok (s :: ss), r2)
        | (Except.error e, r2) => (Except.error e, r2)
      | (Except.error e, r) => (Except.error e, r)

/-- `parse_identifier`: after the field-name identifier has been consumed,
branch on the next token.  The backtick and the error branches consume
nothing.  The result is fed to `parse_identifier_to_backticks`. -/
def parseIdentifier : Nat → String → List TokenWithContext →
    Except ParseError GoStruct × List TokenWithContext
  | 0, _, toks => (Except.error ParseError.unexpectedEndOfFile, toks)
  | fuel + 1, name, toks =>
    match toks with
    | [] => parseToBackticks fuel (Except.error ParseError.unexpectedEndOfFile) []
    | t :: rest =>
      match t.token with
      | Token.dataType ty =>
        parseToBackticks fuel (Except.ok (GoStruct.fieldNameWithTypeOnly name ty)) rest
      | Token.identifier lit =>
        parseToBackticks fuel (Except.ok (GoStruct.fieldWithIdentifierTypeOnly name lit)) rest
      | Token.nextLine =>
        parseToBackticks fuel (Except.ok (GoStruct.fieldNameOnly name)) rest
      | Token.graveaccent =>
        parseToBackticks fuel (Except.ok (GoStruct.fieldWithJSONTags name Ty.any [])) (t :: rest)
      | Token.leftBracket =>
        parseToBackticks fuel (Except.ok (GoStruct.fieldWithList name)) rest
      | _ => parseToBackticks fuel (Except.error ParseError.unknownError) (t :: rest)

/-- `parse_identifier_to_backticks`: a backtick after a recognized field shape
upgrades it with a parsed tag block; `[`-fields continue in the list tail
logic; everything else passes the previous result through unchanged. -/
def parseToBackticks : Nat → Except ParseError GoStruct → List TokenWithContext →
    Except ParseError GoStruct × List TokenWithContext
  | 0, _, toks => (Except.error ParseError.unexpectedEndOfFile, toks)
  | fuel + 1, prev, toks =>
    match toks with
    | [] => (prev, [])
    | t :: rest =>
      match t.token, prev with
      | Token.graveaccent, Except.ok (GoStruct.fieldWithJSONTags name ty _) =>
        (match parseBacktickStmts fuel rest with
          | (Except.ok ss, r) => (Except.ok (GoStruct.fieldWithJSONTags name ty ss), r)
          | (Except.error e, r) => (Except.error e, r))
      | Token.graveaccent, Except.ok (GoStruct.fieldNameWithTypeOnly name ty) =>
        (match parseBacktickStmts fuel rest with
          | (Except.ok ss, r) => (Except.ok (GoStruct.fieldWithJSONTags name ty ss), r)
          | (Except.error e, r) => (Except.error e, r))
      | Token.graveaccent, Except.ok (GoStruct.fieldWithIdentifierTypeOnly name lit) =>
        (match parseBacktickStmts fuel rest with
          | (Except.ok ss, r) =>
            (Except.ok (GoStruct.fieldWithIdentifierAndJSONTags name lit ss), r)
          | (Except.error e, r) => (Except.error e, r))
      | Token.rightBracket, Except.ok (GoStruct.fieldWithList name) =>
        parseListTail fuel name rest
      | _, p => (p, t :: rest)

/-- The `[`-field continuation inside `parse_identifier_to_backticks`: after
the `]`, an element type (built-in or custom identifier), then optionally a
backtick tag block; a bare trailing newline passes the result through
unconsumed, any other trailing token is `UnexpectedEndOfFile`. -/
def parseListTail : Nat → String → List TokenWithContext →
    Except ParseError GoStruct × List TokenWithContext
  | 0, _, toks => (Except.error ParseError.unexpectedEndOfFile, toks)
  | fuel + 1, name, toks =>
    let itemType : Except ParseError GoStruct × List TokenWithContext :=
      match toks with
      | [] => (Except.error ParseError.unexpectedEndOfFile, [])
      | t :: rest =>
        match t.token with
        | Token.dataType ty => (Except.ok (GoStruct.fieldWithListAndType name ty), rest)
        | Token.identifier c => (Except.ok (GoStruct.fieldWithCustomListIdentifier name c), rest)
        | _ => (Except.error ParseError.unknownError, t :: rest)
    match itemType.2 with
    | [] => (Except.error ParseError.unexpectedEndOfFile, [])
    | t :: rest =>
      match t.token, itemType.1 with
      | Token.graveaccent, Except.ok (GoStruct.fieldWithListAndType n ty) =>
        (match parseBacktickStmts fuel rest with
          | (Except.ok ss, r) => (Except.ok (GoStruct.fieldWithListTypeAndJSONTags n ty ss), r)
          | (Except.error e, r) => (Except.error e, r))
      | Token.graveaccent, Except.ok (GoStruct.fieldWithCustomListIdentifier n c) =>
        (match parseBacktickStmts fuel rest with
          | (Except.ok ss, r) =>
            (Except.ok (GoStruct.fieldWithCustomListIdentifierAndJSONTags n c ss), r)
          | (Except.error e, r) => (Except.error e, r))
      | Token.nextLine, p => (p, t :: rest)
      | _, _ => (Except.error ParseError.unexpectedEndOfFile, t :: rest)

end

/-- `parse_block` as `parser.rs` exposes it: the statement loop wrapped into a
`GoStruct::Block`. -/
def parseBlock (fuel : Nat) (toks : List TokenWithContext) :
    Except ParseError GoStruct × List TokenWithContext :=
  match parseBlockStmts fuel toks with
  | (Except.ok ss, r) => (Except.ok (GoStruct.block ss), r)
  | (Except.error e, r) => (Except.error e, r)

/-- The top-level loop of `parse`: parse declarations to exhaustion,
collecting parsed statements and formatted diagnostics; a declaration result
of `UnexpectedEndOfFile` terminates the loop. -/
def parseAux : Nat → List TokenWithContext → List GoStruct × List String
  | 0, _ => ([], [])
  | fuel + 1, toks =>
    match parseDeclaration (fuel + 1) toks with
    | (Except.ok s, rest) =>
      let r := parseAux fuel rest
      (s :: r.1, r.2)
    | (Except.error ParseError.unexpectedEndOfFile, _) => ([], [])
    | (Except.error e, rest) =>
      let r := parseAux fuel rest
      (r.1, formatParseError e :: r.2)

/-- `parse`: succeed with the statement list when no diagnostics were
recorded, fail with the full diagnostic list otherwise.  Every parser step
consumes at least one token, so `4 * length + 8` fuel always suffices. -/
def parse (toks : List TokenWithContext) : Except (List String) (List GoStruct) :=
  let r := parseAux (4 * toks.length + 8) toks
  if r.2.isEmpty then Except.ok r.1 else Except.error r.2

/-- `interpreter.rs`, `enum TransformTo`. -/
inductive TransformTo where
  | flow
  | typescript
  deriving DecidableEq, Repr

/-- `TransformTo::new_interface`: the dialect-specific struct header. -/
def newInterface : TransformTo → String → List String
  | TransformTo.flow, name => ["export type ", name, " ="]
  | TransformTo.typescript, name => ["export interface ", name]

/-- `interpret_json_tags`: the last `JSONName` entry of the tag list replaces
the rendered field name; a resolved name of `-` suppresses the field. -/
def interpretJsonTags (name fieldType : String) (json : List GoStruct) : Option String :=
  let n := json.foldl
    (fun acc st =>
      match st with
      | GoStruct.jsonName s => s
      | _ => acc)
    name
  if n = "-" then none else some (n ++ ":" ++ fieldType)

/-- The per-statement rendering of `interpret_struct_body`'s loop. -/
def interpretStatement : GoStruct → String
  | GoStruct.fieldNameWithTypeOnly name ty => name ++ "?: " ++ tyDisplay ty ++ "; "
  | GoStruct.fieldWithJSONTags name ty json =>
    (match interpretJsonTags name (tyDisplay ty) json with
      | some s => s ++ "; "
      | none => "")
  | GoStruct.fieldNameOnly name => "... " ++ name ++ ";"
  | GoStruct.fieldWithListAndType name ty => name ++ ":" ++ tyDisplay ty ++ "[];"
  | GoStruct.fieldWithListTypeAndJSONTags name ty json =>
    (match interpretJsonTags name (tyDisplay ty) json with
      | some s => s ++ "[];"
      | none => "")
  | GoStruct.fieldWithIdentifierAndJSONTags name lit json =>
    (match interpretJsonTags name lit json with
      | some s => s ++ ";"
      | none => "")
  | GoStruct.fieldWithIdentifierTypeOnly name lit => name ++ ": " ++ lit ++ "; "
  | GoStruct.fieldWithCustomListIdentifier name c => name ++ ": " ++ c ++ "; "
  | GoStruct.fieldWithCustomListIdentifierAndJSONTags name c json =>
    (match interpretJsonTags name c json with
      | some s => s ++ "[];"
      | none => "")
  | _ => ""

/-- `interpret_struct_body`: render each statement of the block in order and
concatenate; a non-block argument renders as the empty string. -/
def interpretStructBody : GoStruct → String
  | GoStruct.block stmts => String.join (stmts.map interpretStatement)
  | _ => ""

/-- The per-item rendering of `interpret`'s loop (`interpret_struct`): a
struct definition renders as header, ` { `, body, `};`; every other top-level
item renders as the empty string. -/
def interpretItem (tt : TransformTo) : GoStruct → String
  | GoStruct.structDefinition name body =>
    String.join (newInterface tt name ++ [" \x7b ", interpretStructBody body, "\x7d;"])
  | _ => ""

/-- `interpret`: render every top-level item in order and concatenate. -/
def interpret (items : List GoStruct) (tt : TransformTo) : String :=
  String.join (items.map (interpretItem tt))

/-- The field-tail tokens recognized by `parse_identifier` after the
field-name identifier: a data-type keyword, another identifier, a newline, a
backtick, or `[`. -/
def startsFieldTail : Token → Bool
  | Token.dataType _ => true
  | Token.identifier _ => true
  | Token.nextLine => true
  | Token.graveaccent => true
  | Token.leftBracket => true
  | _ => false

/-- Token-list constructor helper. -/
def mkTok (t : Token) (lex : String) (p : Position) : TokenWithContext := ⟨t, lex, p⟩

/-- Token sequence of the source text `type A struct { Country string
(backtick)json:"-"(backtick) }`: a struct whose single field carries a json
tag with value exactly `-`. -/
def jsonDashToks : List TokenWithContext :=
  [mkTok Token.typeKw ("type") ⟨1, 1⟩,
   mkTok (Token.identifier "A") ("A") ⟨1, 6⟩,
   mkTok Token.structKw ("struct") ⟨1, 8⟩,
   mkTok Token.leftBrace ("\x7b") ⟨1, 15⟩,
   mkTok (Token.identifier "Country") ("Country") ⟨1, 17⟩,
   mkTok (Token.dataType Ty.string) ("string") ⟨1, 25⟩,
   mkTok Token.graveaccent ("`") ⟨1, 32⟩,
   mkTok Token.json ("json") ⟨1, 33⟩,
   mkTok Token.colon (":") ⟨1, 37⟩,
   mkTok (Token.stringLiteral "-") ("\"-\"") ⟨1, 38⟩,
   mkTok Token.graveaccent ("`") ⟨1, 41⟩,
   mkTok Token.rightBrace ("\x7d") ⟨1, 43⟩]

/-- Token sequence of the source text `type A struct \x7b` — a struct body
opened and never closed before end of input. -/
def openBodyToks : List TokenWithContext :=
  [mkTok Token.typeKw ("type") ⟨1, 1⟩,
   mkTok (Token.identifier "A") ("A") ⟨1, 6⟩,
   mkTok Token.structKw ("struct") ⟨1, 8⟩,
   mkTok Token.leftBrace ("\x7b") ⟨1, 15⟩]

/-- Token sequence of a top-level field whose tag block is opened and never
closed before end of input: `F (backtick)json:"x"`. -/
def openTagToks : List TokenWithContext :=
  [mkTok (Token.identifier "F") ("F") ⟨1, 1⟩,
   mkTok Token.graveaccent ("`") ⟨1, 3⟩,
   mkTok Token.json ("json") ⟨1, 4⟩,
   mkTok Token.colon (":") ⟨1, 8⟩,
   mkTok (Token.stringLiteral "x") ("\"x\"") ⟨1, 9⟩]

/-- Token sequence of the source text `type` followed by `:` — a declaration
that fails with a `Missing(Identifier, …)` error rather than end-of-file. -/
def missingIdentToks : List TokenWithContext :=
  [mkTok Token.typeKw ("type") ⟨1, 1⟩,
   mkTok Token.colon (":") ⟨1, 6⟩]

end Treewalk

theorem String.join_cons_eq (s : String) (l : List String) :
    String.join (s :: l) = s ++ String.join l := by
  apply String.ext
  simp [String.data_join]

theorem Gostruct.advanceWhileAux_spec (p : Char → Bool) (pos : Gostruct.Position)
    (lex src : List Char) :
    Gostruct.advanceWhileAux p pos lex src =
      ((src.takeWhile p).foldl Gostruct.stepPos pos, lex ++ src.takeWhile p,
        src.dropWhile p) := by
  induction src generalizing pos lex with
  | nil => simp [Gostruct.advanceWhileAux]
  | cons c rest ih =>
    by_cases h : p c
    · simp [Gostruct.advanceWhileAux, h, ih, List.takeWhile_cons, List.dropWhile_cons]
    · simp [Gostruct.advanceWhileAux, h, List.takeWhile_cons, List.dropWhile_cons]

/-- C1: the claim says a field whose json tag value is exactly `-` contributes
nothing to the rendered output.  The code violates this: `parse_json` turns
the `-` literal into the `IgnoreField` marker (showing the drop was intended),
but `interpret_json_tags` only inspects `JSONName` entries and its `name ==
"-"` check is unreachable through tags, so the interpreter never consults
`IgnoreField` and the field is rendered anyway.  At the failing input
`type A struct \x7b Country string (backtick)json:"-"(backtick) \x7d` the
parser produces the `IgnoreField` marker inside the field's tag list, yet the
rendered Flow output still contains the `Country` field. -/
theorem c1_json_dash_field_still_rendered :
    Treewalk.parse Treewalk.jsonDashToks =
      Except.ok
        [Treewalk.GoStruct.structDefinition "A"
          (Treewalk.GoStruct.block
            [Treewalk.GoStruct.fieldWithJSONTags "Country" Treewalk.Ty.string
              [Treewalk.GoStruct.ignoreField]])] ∧
    Treewalk.interpret
        [Treewalk.GoStruct.structDefinition "A"
          (Treewalk.GoStruct.block
            [Treewalk.GoStruct.fieldWithJSONTags "Country" Treewalk.Ty.string
              [Treewalk.GoStruct.ignoreField]])]
        Treewalk.TransformTo.flow = "export type A = \x7b Country:string; \x7d;" := by
  exact ⟨rfl, rfl⟩

/-- C2 counterexample: the claim says that reaching end of input with an open
struct body makes the overall parse fail reporting UnexpectedEndOfFile and
that the parse never returns success for such an input.  On the token
sequence of `type A struct \x7b` (body opened, never closed) the top-level
`parse` returns success with an empty declaration list: its loop treats the
`UnexpectedEndOfFile` error bubbling out of `parse_block` as the normal
end-of-input termination and records no diagnostic. -/
theorem c2_open_body_parse_returns_success :
    Treewalk.parse Treewalk.openBodyToks = Except.ok [] ∧
    Treewalk.parse Treewalk.openTagToks = Except.ok [] := by
  exact ⟨rfl, rfl⟩

/-- C2 amended: reaching end of input while a struct body is open does make
the enclosing declaration's parse fail with UnexpectedEndOfFile — the open
body is never treated as implicitly closed and the declaration is discarded —
but the top-level `parse` treats that error as its normal end-of-input
termination: it records no diagnostic and returns success with the
declarations parsed so far (here: none).  The same happens for an open tag
block. -/
theorem c2_amended_open_body_eof (fuel : Nat) (t1 t2 t3 t4 : Treewalk.TokenWithContext)
    (name : String) (h1 : t1.token = Treewalk.Token.typeKw)
    (h2 : t2.token = Treewalk.Token.identifier name)
    (h3 : t3.token = Treewalk.Token.structKw)
    (h4 : t4.token = Treewalk.Token.leftBrace) :
    Treewalk.parseDeclaration (fuel + 3) [t1, t2, t3, t4] =
      (Except.error Treewalk.ParseError.unexpectedEndOfFile, []) ∧
    Treewalk.parse [t1, t2, t3, t4] = Except.ok [] := by
  obtain ⟨tok1, lex1, pos1⟩ := t1
  obtain ⟨tok2, lex2, pos2⟩ := t2
  obtain ⟨tok3, lex3, pos3⟩ := t3
  obtain ⟨tok4, lex4, pos4⟩ := t4
  simp only at h1 h2 h3 h4
  subst h1 h2 h3 h4
  constructor
  · show Treewalk.parseDeclaration (fuel + 2 + 1) _ = _
    simp [Treewalk.parseDeclaration, Treewalk.parseStructDeclaration,
      Treewalk.parseBlockStmts, Treewalk.consumeIdentifier, Treewalk.consumeStructKw,
      Treewalk.consumeLeftBrace]
  · rfl

/-- Closed witness for the amended C2 theorem. -/
theorem c2_amended_open_body_eof_witness :
    Treewalk.parseDeclaration 3
        [Treewalk.mkTok Treewalk.Token.typeKw ("type") ⟨1, 1⟩,
         Treewalk.mkTok (Treewalk.Token.identifier "A") ("A") ⟨1, 6⟩,
         Treewalk.mkTok Treewalk.Token.structKw ("struct") ⟨1, 8⟩,
         Treewalk.mkTok Treewalk.Token.leftBrace ("\x7b") ⟨1, 15⟩] =
      (Except.error Treewalk.ParseError.unexpectedEndOfFile, []) ∧
    Treewalk.parse
        [Treewalk.mkTok Treewalk.Token.typeKw ("type") ⟨1, 1⟩,
         Treewalk.mkTok (Treewalk.Token.identifier "A") ("A") ⟨1, 6⟩,
         Treewalk.mkTok Treewalk.Token.structKw ("struct") ⟨1, 8⟩,
         Treewalk.mkTok Treewalk.Token.leftBrace ("\x7b") ⟨1, 15⟩] = Except.ok [] :=
  c2_amended_open_body_eof 0 _ _ _ _ "A" rfl rfl rfl rfl

/-- C3 counterexample: the claim says the optional marker `?:` appears exactly
for fields whose type was Unspecified, and for no field with a specified
built-in type.  But the interpreter renders every plain field with a
specified built-in type through `format!("?: \x7b\x7d; ")`: the field
`Country string` renders as `Country?: string; `, with the optional marker
despite the specified type, not as `Country: string; `. -/
theorem c3_specified_type_gets_optional_marker :
    Treewalk.interpretStructBody
        (Treewalk.GoStruct.block
          [Treewalk.GoStruct.fieldNameWithTypeOnly "Country" Treewalk.Ty.string]) =
      "Country?: string; " ∧
    Treewalk.interpretStructBody
        (Treewalk.GoStruct.block
          [Treewalk.GoStruct.fieldNameWithTypeOnly "Country" Treewalk.Ty.string]) ≠
      "Country: string; " := by
  exact ⟨rfl, by decide⟩

/-- C3 amended: a plain scalar field with a built-in type always renders with
the optional marker, `<name>?: <type>; `; a plain field with a custom
(identifier) type renders `<name>: <type>; ` with a plain colon; a tagged
scalar field renders `<resolvedName>:<type>; ` with a plain colon — also when
its type is the unspecified `Type::Any` — where the resolved name is the
json-tag value when one is present and otherwise the field name, and the
field is suppressed exactly when the resolved name is `-`.  The optional
marker thus tracks the field's shape (plain with built-in type), not whether
the type was Unspecified. -/
theorem c3_amended_scalar_rendering (name lit tag : String) (ty : Treewalk.Ty) :
    Treewalk.interpretStatement (Treewalk.GoStruct.fieldNameWithTypeOnly name ty) =
      name ++ "?: " ++ Treewalk.tyDisplay ty ++ "; " ∧
    Treewalk.interpretStatement (Treewalk.GoStruct.fieldWithIdentifierTypeOnly name lit) =
      name ++ ": " ++ lit ++ "; " ∧
    Treewalk.interpretStatement
        (Treewalk.GoStruct.fieldWithJSONTags name ty [Treewalk.GoStruct.jsonName tag]) =
      (if tag = "-" then "" else tag ++ ":" ++ Treewalk.tyDisplay ty ++ "; ") ∧
    Treewalk.interpretStatement (Treewalk.GoStruct.fieldWithJSONTags name ty []) =
      (if name = "-" then "" else name ++ ":" ++ Treewalk.tyDisplay ty ++ "; ") := by
  refine ⟨rfl, rfl, ?_, ?_⟩
  · by_cases h : tag = "-" <;>
      simp [Treewalk.interpretStatement, Treewalk.interpretJsonTags, h]
  · by_cases h : name = "-" <;>
      simp [Treewalk.interpretStatement, Treewalk.interpretJsonTags, h]

/-- C4: interpretation of a declaration list succeeds exactly when every
top-level item is a struct declaration, and its only failure mode is the
distinct interpreter error `ExpectedStructFoundField`, raised when some
top-level item is not a struct declaration. -/
theorem c4_interpret_single_failure_mode (ast : List Gostruct.AST) :
    ((∃ s, Gostruct.interpretTS ast = Except.ok s) ↔
      ∀ a ∈ ast, a.isDeclaration = true) ∧
    (∀ e, Gostruct.interpretTS ast = Except.error e →
      e = Gostruct.InterpreterError.expectedStructFoundField) := by
  constructor
  · induction ast with
    | nil => simp [Gostruct.interpretTS]
    | cons a rest ih =>
      cases a with
      | declaration d =>
        simp only [Gostruct.interpretTS, List.mem_cons]
        constructor
        · rintro ⟨s, hs⟩ a ha
          rcases ha with rfl | ha
          · rfl
          · rcases h2 : Gostruct.interpretTS rest with e | s2
            · rw [h2] at hs; simp [Except.map] at hs
            · exact ih.mp ⟨s2, h2⟩ a ha
        · intro h
          obtain ⟨s2, h2⟩ := ih.mpr (fun a ha => h a (Or.inr ha))
          exact ⟨Gostruct.tsStruct d ++ s2, by rw [h2]; rfl⟩
      | field f =>
        simp [Gostruct.interpretTS, Gostruct.AST.isDeclaration]
  · intro e _
    cases e
    rfl

/-- Closed witness for C4: a list of struct declarations interprets
successfully, and a bare field at the top level is the interpreter error. -/
theorem c4_interpret_single_failure_mode_witness :
    ∃ s, Gostruct.interpretTS [Gostruct.AST.declaration ⟨"A", []⟩] = Except.ok s :=
  (c4_interpret_single_failure_mode [Gostruct.AST.declaration ⟨"A", []⟩]).1.mpr
    (by intro a ha; simp at ha; subst ha; rfl)

/-- C5: when a declaration fails with any error other than
UnexpectedEndOfFile (the top-level loop's end-of-input termination), the
top-level loop records the error's formatted diagnostic and continues parsing
from the following tokens, so a malformed declaration never prevents later
declarations from being examined; and the overall result of `parse` is the
complete declaration list exactly when zero diagnostics were recorded, and
otherwise the complete diagnostic list — never a mixture. -/
theorem c5_error_recovery_and_aggregation :
    (∀ fuel toks e rest,
      Treewalk.parseDeclaration (fuel + 1) toks = (Except.error e, rest) →
      e ≠ Treewalk.ParseError.unexpectedEndOfFile →
      Treewalk.parseAux (fuel + 1) toks =
        ((Treewalk.parseAux fuel rest).1,
          Treewalk.formatParseError e :: (Treewalk.parseAux fuel rest).2)) ∧
    (∀ fuel toks s rest,
      Treewalk.parseDeclaration (fuel + 1) toks = (Except.ok s, rest) →
      Treewalk.parseAux (fuel + 1) toks =
        (s :: (Treewalk.parseAux fuel rest).1, (Treewalk.parseAux fuel rest).2)) ∧
    (∀ toks,
      (Treewalk.parseAux (4 * toks.length + 8) toks).2 = [] →
        Treewalk.parse toks = Except.ok (Treewalk.parseAux (4 * toks.length + 8) toks).1) ∧
    (∀ toks,
      (Treewalk.parseAux (4 * toks.length + 8) toks).2 ≠ [] →
        Treewalk.parse toks = Except.error (Treewalk.parseAux (4 * toks.length + 8) toks).2) := by
  refine ⟨?_, ?_, ?_, ?_⟩
  · intro fuel toks e rest h hne
    rw [show fuel + 1 = fuel.succ from rfl, Treewalk.parseAux, h]
    cases e with
    | unexpectedEndOfFile => exact absurd rfl hne
    | unknownError => rfl
    | missing a b c => rfl
  · intro fuel toks s rest h
    rw [show fuel + 1 = fuel.succ from rfl, Treewalk.parseAux, h]
  · intro toks h
    rw [Treewalk.parse]
    simp [h]
  · intro toks h
    rw [Treewalk.parse]
    simp [h]

/-- Closed witness for C5: at the tokens of `type :` the declaration fails
with `Missing(Identifier, …)` (not end-of-file), the diagnostic is recorded
and the loop continues on the (here empty) rest. -/
theorem c5_error_recovery_and_aggregation_witness :
    Treewalk.parseAux 2 Treewalk.missingIdentToks =
      ((Treewalk.parseAux 1 []).1,
        Treewalk.formatParseError
            (Treewalk.ParseError.missing Treewalk.RequiredElements.identifier (":") ⟨1, 6⟩) ::
          (Treewalk.parseAux 1 []).2) :=
  c5_error_recovery_and_aggregation.1 1 Treewalk.missingIdentToks
    (Treewalk.ParseError.missing Treewalk.RequiredElements.identifier (":") ⟨1, 6⟩) []
    rfl (by decide)

/-- The top-level interpreter loop renders item by item. -/
theorem Treewalk.interpret_cons (x : Treewalk.GoStruct) (l : List Treewalk.GoStruct)
    (tt : Treewalk.TransformTo) :
    Treewalk.interpret (x :: l) tt =
      Treewalk.interpretItem tt x ++ Treewalk.interpret l tt := by
  simp [Treewalk.interpret, String.join_cons_eq]

/-- The Flow header and the body template concatenate to the Flow struct
template. -/
theorem Treewalk.interpretItem_flow (n : String) (b : Treewalk.GoStruct) :
    Treewalk.interpretItem Treewalk.TransformTo.flow (Treewalk.GoStruct.structDefinition n b) =
      "export type " ++ n ++ " = \x7b " ++ Treewalk.interpretStructBody b ++ "\x7d;" := by
  apply String.ext
  simp [Treewalk.interpretItem, Treewalk.newInterface, String.data_join, List.append_assoc]

/-- C7: the Flow-dialect interpreter renders each struct declaration as
`export type <Name> = \x7b <fields> \x7d;`, with the fields rendered in their
original declaration order and concatenated, and the per-struct outputs
concatenated in source order with no separator between structs. -/
theorem c7_flow_dialect_rendering (structs : List (String × Treewalk.GoStruct)) :
    Treewalk.interpret
        (structs.map fun p => Treewalk.GoStruct.structDefinition p.1 p.2)
        Treewalk.TransformTo.flow =
      String.join (structs.map fun p =>
        "export type " ++ p.1 ++ " = \x7b " ++ Treewalk.interpretStructBody p.2 ++ "\x7d;") ∧
    (∀ stmts : List Treewalk.GoStruct,
      Treewalk.interpretStructBody (Treewalk.GoStruct.block stmts) =
        String.join (stmts.map Treewalk.interpretStatement)) := by
  constructor
  · induction structs with
    | nil => rfl
    | cons p rest ih =>
      rw [List.map_cons, Treewalk.interpret_cons, ih, List.map_cons,
        String.join_cons_eq, Treewalk.interpretItem_flow]
  · intro stmts
    rfl

/-- C6 counterexample: the claim says string scanning consumes characters
until an *unescaped* closing quote, and that scan errors exactly when some
string literal is not closed before a newline or end of input.  The scanner
recognizes no escape sequences: in the input `"\"` followed by `"` (four
characters: quote, backslash, quote, quote) the backslash-escaped quote
should, per the claim, not terminate the literal, which is then closed by the
final unescaped quote — so the claim says this input scans without error.
The code instead terminates the literal at the backslash-escaped quote and
then treats the final quote as opening a new, unterminated literal, so `scan`
fails. -/
theorem c6_escaped_quote_terminates_literal :
    Gostruct.scan "\"\\\"\"" =
      Except.error ["MissingStringTerminator(Position \x7b line: 1, column: 5 \x7d)"] := by
  rfl

/-- C6 amended: string scanning consumes characters until a closing quote
(the scanner recognizes no escape sequences: any quote character, also one
preceded by a backslash, terminates the literal), a newline, or end of input;
when no quote follows the consumed run it fails with MissingStringTerminator
carrying the position where scanning stopped; after recording an error the
scan loop continues over the rest of the input collecting all diagnostics;
the only lexical error is the missing string terminator; and scan returns the
tokens exactly when no error was recorded and otherwise only the error
list — never both. -/
theorem c6_amended_string_scanning :
    (∀ pos : Gostruct.Position, ∀ lex src : List Char,
      (src.dropWhile Gostruct.notQuoteNewline).head? ≠ some '"' →
      Gostruct.stringFn ⟨pos, lex, src⟩ =
        (Except.error (Gostruct.ScannerError.missingStringTerminator
            ((src.takeWhile Gostruct.notQuoteNewline).foldl Gostruct.stepPos pos)),
          ⟨(src.takeWhile Gostruct.notQuoteNewline).foldl Gostruct.stepPos pos,
            lex ++ src.takeWhile Gostruct.notQuoteNewline,
            src.dropWhile Gostruct.notQuoteNewline⟩)) ∧
    (∀ pos : Gostruct.Position, ∀ lex src rest : List Char,
      src.dropWhile Gostruct.notQuoteNewline = '"' :: rest →
      Gostruct.stringFn ⟨pos, lex, src⟩ =
        (Except.ok (Gostruct.Token.stringLiteral (String.mk
            ((((lex ++ src.takeWhile Gostruct.notQuoteNewline) ++ ['"']).drop 1).take
              (((lex ++ src.takeWhile Gostruct.notQuoteNewline) ++ ['"']).length - 2)))),
          ⟨Gostruct.stepPos
              ((src.takeWhile Gostruct.notQuoteNewline).foldl Gostruct.stepPos pos) '"',
            (lex ++ src.takeWhile Gostruct.notQuoteNewline) ++ ['"'], rest⟩)) ∧
    (∀ fuel : Nat, ∀ st : Gostruct.ScanState, ∀ e st',
      Gostruct.scanNext st = some (Except.error e, st') →
      Gostruct.scanAux (fuel + 1) st =
        ((Gostruct.scanAux fuel st').1,
          Gostruct.formatScannerError e :: (Gostruct.scanAux fuel st').2)) ∧
    (∀ st e st', Gostruct.scanNext st = some (Except.error e, st') →
      ∃ p, e = Gostruct.ScannerError.missingStringTerminator p) ∧
    (∀ s : String,
      ((Gostruct.scanAux (s.length + 1) ⟨Gostruct.Position.initial, [], s.data⟩).2 = [] →
        Gostruct.scan s =
          Except.ok (Gostruct.scanAux (s.length + 1) ⟨Gostruct.Position.initial, [], s.data⟩).1) ∧
      ((Gostruct.scanAux (s.length + 1) ⟨Gostruct.Position.initial, [], s.data⟩).2 ≠ [] →
        Gostruct.scan s =
          Except.error (Gostruct.scanAux (s.length + 1) ⟨Gostruct.Position.initial, [], s.data⟩).2)) := by
  refine ⟨?_, ?_, ?_, ?_, ?_⟩
  · intro pos lex src h
    simp only [Gostruct.stringFn, Gostruct.advanceWhile, Gostruct.advanceWhileAux_spec]
    split
    · next rest heq => rw [heq] at h; simp at h
    · rfl
  · intro pos lex src rest h
    simp only [Gostruct.stringFn, Gostruct.advanceWhile, Gostruct.advanceWhileAux_spec]
    split
    · next rest2 heq =>
      rw [h] at heq
      obtain rfl : rest = rest2 := by injection heq
      rfl
    · next hne => exact absurd h (hne rest)
  · intro fuel st e st' h
    rw [show fuel + 1 = fuel.succ from rfl, Gostruct.scanAux, h]
  · intro st e st' _
    cases e with
    | missingStringTerminator p => exact ⟨p, rfl⟩
  · intro s
    constructor
    · intro h
      simp [Gostruct.scan, h]
    · intro h
      simp [Gostruct.scan, h]

/-- Closed witness for the amended C6 theorem: the failing branch at a run
stopped by end of input, the succeeding branch at a quote-terminated run, and
the error-collection step of the scan loop, all at concrete inputs. -/
theorem c6_amended_string_scanning_witness :
    Gostruct.stringFn ⟨⟨1, 2⟩, ['"'], ['a']⟩ =
      (Except.error (Gostruct.ScannerError.missingStringTerminator ⟨1, 3⟩),
        ⟨⟨1, 3⟩, ['"', 'a'], []⟩) ∧
    Gostruct.stringFn ⟨⟨1, 2⟩, ['"'], ['a', '"', 'x']⟩ =
      (Except.ok (Gostruct.Token.stringLiteral "a"), ⟨⟨1, 4⟩, ['"', 'a', '"'], ['x']⟩) ∧
    Gostruct.scanAux 1 ⟨⟨1, 1⟩, [], ['"']⟩ =
      ((Gostruct.scanAux 0 ⟨⟨1, 2⟩, ['"'], []⟩).1,
        Gostruct.formatScannerError (Gostruct.ScannerError.missingStringTerminator ⟨1, 2⟩) ::
          (Gostruct.scanAux 0 ⟨⟨1, 2⟩, ['"'], []⟩).2) := by
  refine ⟨?_, ?_, ?_⟩
  · exact c6_amended_string_scanning.1 ⟨1, 2⟩ ['"'] ['a'] (by decide)
  · exact c6_amended_string_scanning.2.1 ⟨1, 2⟩ ['"'] ['a', '"', 'x'] ['x'] (by decide)
  · exact c6_amended_string_scanning.2.2.1 0 ⟨⟨1, 1⟩, [], ['"']⟩
      (Gostruct.ScannerError.missingStringTerminator ⟨1, 2⟩) ⟨⟨1, 2⟩, ['"'], []⟩ rfl

/-- C8: the lexer's keyword table sends the integer and floating-point
keywords to the Number data type, the string keyword and the qualified
date/time type name to the String data type, the boolean keyword to Boolean,
`type` and `struct` to structural keyword tokens, and every other lexeme to
an Identifier token; and on an identifier-shaped first character the scanner
consumes the maximal run of identifier characters and classifies the whole
lexeme through that table. -/
theorem c8_keyword_classification :
    Gostruct.keywordOf ("int") = Gostruct.Token.dataType Gostruct.DataType.number ∧
    Gostruct.keywordOf ("int64") = Gostruct.Token.dataType Gostruct.DataType.number ∧
    Gostruct.keywordOf ("float64") = Gostruct.Token.dataType Gostruct.DataType.number ∧
    Gostruct.keywordOf ("string") = Gostruct.Token.dataType Gostruct.DataType.string ∧
    Gostruct.keywordOf ("time.Time") = Gostruct.Token.dataType Gostruct.DataType.string ∧
    Gostruct.keywordOf ("bool") = Gostruct.Token.dataType Gostruct.DataType.boolean ∧
    Gostruct.keywordOf ("type") = Gostruct.Token.typeKw ∧
    Gostruct.keywordOf ("struct") = Gostruct.Token.structKw ∧
    (∀ s : String,
      s ∉ (["type", "struct", "int64", "float64", "string", "int", "time.Time",
        "bool"] : List String) →
      Gostruct.keywordOf s = Gostruct.Token.identifier s) ∧
    (∀ st : Gostruct.ScanState, ∀ c : Char, ∀ rest : List Char,
      st.source = c :: rest →
      c ≠ ':' → c ≠ '{' → c ≠ '}' → c ≠ Char.ofNat 96 → c ≠ '[' → c ≠ ']' → c ≠ '*' →
      Gostruct.isNextline c = false → Gostruct.isWhitespace c = false → c ≠ '"' →
      Gostruct.scanNext st =
        some (Except.ok
            ⟨Gostruct.keywordOf (String.mk (c :: rest.takeWhile Gostruct.isAlphanumeric)),
              String.mk (c :: rest.takeWhile Gostruct.isAlphanumeric), st.pos⟩,
          ⟨(rest.takeWhile Gostruct.isAlphanumeric).foldl Gostruct.stepPos
              (Gostruct.stepPos st.pos c),
            c :: rest.takeWhile Gostruct.isAlphanumeric,
            rest.dropWhile Gostruct.isAlphanumeric⟩)) := by
  refine ⟨rfl, rfl, rfl, rfl, rfl, rfl, rfl, rfl, ?_, ?_⟩
  · intro s hs
    simp only [List.mem_cons, List.not_mem_nil, or_false, not_or] at hs
    obtain ⟨h1, h2, h3, h4, h5, h6, h7, h8⟩ := hs
    simp [Gostruct.keywordOf, h1, h2, h3, h4, h5, h6, h7, h8]
  · intro st c rest hsrc h1 h2 h3 h4 h5 h6 h7 h8 h9 h10
    obtain ⟨pos, lex, source⟩ := st
    simp only at hsrc
    subst hsrc
    simp only [Gostruct.scanNext, Gostruct.scanRaw, h1, h2, h3, h4, h5, h6, h7, h8, h9,
      h10, if_false, if_neg, Gostruct.identifierFn, Gostruct.advanceWhile,
      Gostruct.advanceWhileAux_spec, Bool.false_eq_true]
    simp [Gostruct.identifierFn, Gostruct.advanceWhile, Gostruct.advanceWhileAux_spec]
    rfl

/-- Closed witness for C8: the catch-all branch at the lexeme `Foo`, and the
maximal-munch scan of `bool ` producing the Boolean data-type token. -/
theorem c8_keyword_classification_witness :
    Gostruct.keywordOf ("Foo") = Gostruct.Token.identifier "Foo" ∧
    Gostruct.scanNext ⟨⟨1, 1⟩, [], ['b', 'o', 'o', 'l', ' ']⟩ =
      some (Except.ok
          ⟨Gostruct.keywordOf (String.mk ['b', 'o', 'o', 'l']),
            String.mk ['b', 'o', 'o', 'l'], ⟨1, 1⟩⟩,
        ⟨⟨1, 5⟩, ['b', 'o', 'o', 'l'], [' ']⟩) := by
  constructor
  · exact c8_keyword_classification.2.2.2.2.2.2.2.2.1 "Foo" (by decide)
  · exact c8_keyword_classification.2.2.2.2.2.2.2.2.2
      ⟨⟨1, 1⟩, [], ['b', 'o', 'o', 'l', ' ']⟩ 'b' ['o', 'o', 'l', ' '] rfl
      (by decide) (by decide) (by decide) (by decide) (by decide) (by decide)
      (by decide) (by decide) (by decide) (by decide)

/-- C9: position tracking starts at line 1, column 1; consuming a newline
increments the line and resets the column to 1, consuming any other
character advances the column by 1; and every token `scan_next` produces
carries the position that was current when its first character was
consumed. -/
theorem c9_position_tracking :
    Gostruct.Position.initial = ⟨1, 1⟩ ∧
    (∀ p : Gostruct.Position, Gostruct.stepPos p '\n' = ⟨p.line + 1, 1⟩) ∧
    (∀ p : Gostruct.Position, ∀ c : Char, c ≠ '\n' →
      Gostruct.stepPos p c = ⟨p.line, p.column + 1⟩) ∧
    (∀ st : Gostruct.ScanState, ∀ r st', Gostruct.scanNext st = some (r, st') →
      ∀ twc : Gostruct.TokenWithContext, r = Except.ok twc → twc.position = st.pos) := by
  refine ⟨rfl, ?_, ?_, ?_⟩
  · intro p
    simp [Gostruct.stepPos, Gostruct.Position.incrementLine]
  · intro p c hc
    simp [Gostruct.stepPos, hc, Gostruct.Position.incrementColumn]
  · intro st r st' h twc hr
    obtain ⟨pos, lex, source⟩ := st
    cases source with
    | nil => simp [Gostruct.scanNext] at h
    | cons c rest =>
      simp only [Gostruct.scanNext, Option.some.injEq, Prod.mk.injEq] at h
      obtain ⟨hfst, _⟩ := h
      rw [← hfst] at hr
      rcases hraw : (Gostruct.scanRaw c ⟨Gostruct.stepPos pos c, [c], rest⟩).1 with e | t
      · rw [hraw] at hr
        simp [Except.map] at hr
      · rw [hraw] at hr
        simp only [Except.map, Except.ok.injEq] at hr
        rw [← hr]

/-- Closed witness for C9: a non-newline character advances the column, and
the colon token scanned at position (2,7) carries exactly that position. -/
theorem c9_position_tracking_witness :
    Gostruct.stepPos ⟨3, 5⟩ 'a' = ⟨3, 6⟩ ∧
    (⟨Gostruct.Token.colon, ":", ⟨2, 7⟩⟩ : Gostruct.TokenWithContext).position = ⟨2, 7⟩ := by
  constructor
  · exact c9_position_tracking.2.2.1 ⟨3, 5⟩ 'a' (by decide)
  · exact c9_position_tracking.2.2.2 ⟨⟨2, 7⟩, [], [':']⟩
      (Except.ok ⟨Gostruct.Token.colon, ":", ⟨2, 7⟩⟩) ⟨⟨2, 8⟩, [':'], []⟩ rfl
      ⟨Gostruct.Token.colon, ":", ⟨2, 7⟩⟩ rfl

/-- C10: after the field-name identifier has been consumed, a next token that
is none of a data-type keyword, another identifier, a newline, a backtick, or
`[` makes `parse_identifier` return UnknownError with that token not
consumed — in particular a closing brace directly after the identifier — so
embedded-field treatment (`FieldNameOnly`) happens exactly when a newline
token directly follows the identifier; and when the tokens end right after
the identifier the result is UnexpectedEndOfFile. -/
theorem c10_field_tail_dispatch (fuel : Nat) (name : String)
    (t : Treewalk.TokenWithContext) (rest : List Treewalk.TokenWithContext)
    (h : Treewalk.startsFieldTail t.token = false) :
    Treewalk.parseIdentifier (fuel + 2) name (t :: rest) =
      (Except.error Treewalk.ParseError.unknownError, t :: rest) ∧
    Treewalk.parseIdentifier (fuel + 2) name [] =
      (Except.error Treewalk.ParseError.unexpectedEndOfFile, []) ∧
    (∀ t' : Treewalk.TokenWithContext, t'.token = Treewalk.Token.nextLine →
      Treewalk.parseIdentifier (fuel + 2) name (t' :: rest) =
        (Except.ok (Treewalk.GoStruct.fieldNameOnly name), rest)) := by
  refine ⟨?_, ?_, ?_⟩
  · obtain ⟨tok, lex, pos⟩ := t
    simp only at h
    cases tok <;> first
      | rfl
      | simp [Treewalk.startsFieldTail] at h
  · rfl
  · intro t' ht
    obtain ⟨tok, lex, pos⟩ := t'
    simp only at ht
    subst ht
    cases rest with
    | nil => rfl
    | cons u r2 =>
      obtain ⟨toku, lexu, posu⟩ := u
      cases toku <;> rfl

/-- Closed witness for C10: a closing brace directly after the field-name
identifier is UnknownError, and a newline directly after it is the embedded
field. -/
theorem c10_field_tail_dispatch_witness :
    Treewalk.parseIdentifier 2 "F"
        [Treewalk.mkTok Treewalk.Token.rightBrace ("\x7d") ⟨1, 3⟩] =
      (Except.error Treewalk.ParseError.unknownError,
        [Treewalk.mkTok Treewalk.Token.rightBrace ("\x7d") ⟨1, 3⟩]) ∧
    Treewalk.parseIdentifier 2 "F"
        [Treewalk.mkTok Treewalk.Token.nextLine ("\n") ⟨1, 3⟩] =
      (Except.ok (Treewalk.GoStruct.fieldNameOnly "F"), []) := by
  constructor
  · exact (c10_field_tail_dispatch 0 "F"
      (Treewalk.mkTok Treewalk.Token.rightBrace ("\x7d") ⟨1, 3⟩) [] rfl).1
  · exact (c10_field_tail_dispatch 0 "F"
      (Treewalk.mkTok Treewalk.Token.rightBrace ("\x7d") ⟨1, 3⟩) [] rfl).2.2
      (Treewalk.mkTok Treewalk.Token.nextLine ("\n") ⟨1, 3⟩) rfl
